import Mathlib

/-!
Verification of the bulk-insert CSV generator (`bulk.py`).

This file gives a shallow embedding of the program's core: the value
sanitizer `safe_value`, the flattening engine `flatten_segment_to_fields`,
the seven segment row builders, the record expander
`generate_all_segment_rows`, and the CSV emission pipeline
`generate_csv_from_json`, together with theorems about them.

Modelling conventions:
* JSON values (the dynamic values flowing through the Python code) are the
  inductive `JsonVal`.  JSON numbers are modelled as integers (no claim
  depends on floats).
* Python operations whose receiver may have the wrong dynamic type
  (`x.get(...)` on a non-dict, iterating a non-iterable) are modelled in
  the `Except PyErr` monad; an uncaught `.error` is an uncaught Python
  exception aborting the run.
* Python `str()`/`repr()` on JSON-shaped values is `pyStr`/`pyRepr`; both
  are total, as in Python.  `str.strip()`, `str.split()`, `' '.join`,
  `str.replace(c, d)` and slicing `s[:n]` are `pyStrip`, `splitWsChars`,
  `joinWs`, `replChar` and `pyTake`, all character-list based.
* File I/O is out of scope: `generate_csv_from_json` is modelled from the
  parsed JSON document; the rows handed to `csv_writer.writerows` are
  accumulated in `EmitState.written` (the header row is written separately
  in the source and is not part of `rows_written` there either).
-/

namespace Bulk

/-- JSON-shaped dynamic values, as produced by `json.load`. -/
inductive JsonVal where
  | null : JsonVal
  | bool : Bool → JsonVal
  | int : Int → JsonVal
  | str : String → JsonVal
  | arr : List JsonVal → JsonVal
  | obj : List (String × JsonVal) → JsonVal

/-- Python exceptions that the modelled code can raise. -/
inductive PyErr where
  | attributeError : PyErr
  | typeError : PyErr
deriving DecidableEq

/-- Python whitespace characters (the ASCII ones recognised by
`str.strip()` / `str.split()`). -/
def isPyWs (c : Char) : Bool :=
  c = ' ' || c = '\t' || c = '\n' || c = '\r' || c = '\x0B' || c = '\x0C'

/-- Python `repr` of a string: quote selection and escaping.  Only the
escapes relevant to JSON-shaped data are modelled. -/
def pyReprStrChars (q : Char) (l : List Char) : List Char :=
  l.flatMap (fun c =>
    if c = '\\' then ['\\', '\\']
    else if c = q then ['\\', q]
    else if c = '\n' then ['\\', 'n']
    else if c = '\r' then ['\\', 'r']
    else if c = '\t' then ['\\', 't']
    else [c])

/-- Python `repr` of a string (used for strings nested inside containers). -/
def pyReprStr (s : String) : String :=
  let q : Char := if s.data.contains '\'' && !(s.data.contains '"') then '"' else '\''
  String.mk (q :: pyReprStrChars q s.data ++ [q])

mutual

/-- Python `repr` on JSON-shaped values (`str` and `repr` agree except on
strings, where `str` is the identity). -/
def pyRepr : JsonVal → String
  | .null => "None"
  | .bool b => if b then "True" else "False"
  | .int n => toString n
  | .str s => pyReprStr s
  | .arr items => "[" ++ pyReprItems items ++ "]"
  | .obj entries => "\x7b" ++ pyReprEntries entries ++ "\x7d"

/-- `repr` of list elements, comma separated. -/
def pyReprItems : List JsonVal → String
  | [] => ""
  | [v] => pyRepr v
  | v :: rest => pyRepr v ++ ", " ++ pyReprItems rest

/-- `repr` of dict entries, comma separated. -/
def pyReprEntries : List (String × JsonVal) → String
  | [] => ""
  | [(k, v)] => pyReprStr k ++ ": " ++ pyRepr v
  | (k, v) :: rest => pyReprStr k ++ ": " ++ pyRepr v ++ ", " ++ pyReprEntries rest

end

/-- Python `str()` on JSON-shaped values. -/
def pyStr : JsonVal → String
  | .str s => s
  | v => pyRepr v

/-- Python `str.strip()`: drop leading and trailing whitespace. -/
def pyStrip (s : String) : String :=
  String.mk (((s.data.dropWhile isPyWs).reverse.dropWhile isPyWs).reverse)

/-- Python `str.replace(a, b)` for single characters. -/
def replChar (a b : Char) (s : String) : String :=
  String.mk (s.data.map (fun c => if c = a then b else c))

/-- Tokenizer for Python `str.split()`: `acc` holds the characters of the
current word in reverse. -/
def splitWsAux : List Char → List Char → List (List Char)
  | [], acc => if acc.isEmpty then [] else [acc.reverse]
  | c :: cs, acc =>
    if isPyWs c then
      if acc.isEmpty then splitWsAux cs [] else acc.reverse :: splitWsAux cs []
    else splitWsAux cs (c :: acc)

/-- Python `str.split()` (no argument): split on whitespace runs,
discarding empty pieces. -/
def splitWsChars (l : List Char) : List (List Char) :=
  splitWsAux l []

/-- Python `' '.join(words)`. -/
def joinWs : List (List Char) → List Char
  | [] => []
  | [w] => w
  | w :: ws => w ++ ' ' :: joinWs ws

/-- Python `' '.join(s.split())`. -/
def pyJoinSplit (s : String) : String :=
  String.mk (joinWs (splitWsChars s.data))

/-- Python slicing `s[:n]`. -/
def pyTake (s : String) (n : Nat) : String :=
  String.mk (s.data.take n)

/-- The test `val is None or val == '' or val == 'null'` from `safe_value`. -/
def isNullLike : JsonVal → Bool
  | .null => true
  | .str s => s == "" || s == "null"
  | _ => false

/-- `safe_value(val)` (bulk.py lines 8-27): empty string for null-like
values; otherwise stringify, strip, replace newlines and carriage returns
by spaces, collapse whitespace runs via `' '.join(val_str.split())`, and
replace `|` by `-`. -/
def safe_value (val : JsonVal) : String :=
  if isNullLike val then ""
  else
    let val_str := pyStrip (pyStr val)
    let val_str := replChar '\n' ' ' val_str
    let val_str := replChar '\r' ' ' val_str
    let val_str := pyJoinSplit val_str
    let val_str := replChar '|' '-' val_str
    val_str

mutual

/-- `flatten_segment_to_fields(segment_data)` (bulk.py lines 47-74):
depth-first flattening of a JSON value into sanitized scalar strings. -/
def flatten_segment_to_fields : JsonVal → List String
  | .obj entries => flattenDictEntries entries
  | .arr items => flattenSeqItems items
  | v => [safe_value v]

/-- The `for key, value in segment_data.items()` loop of the dict branch. -/
def flattenDictEntries : List (String × JsonVal) → List String
  | [] => []
  | (_, value) :: rest =>
    (match value with
     | .obj es => flatten_segment_to_fields (.obj es)
     | .arr items => flattenSeqItems items
     | v => [safe_value v]) ++ flattenDictEntries rest

/-- The `for item in ...` loop over a list (both the top-level list branch
and the inner loop over a list-valued dict entry do exactly this). -/
def flattenSeqItems : List JsonVal → List String
  | [] => []
  | item :: rest =>
    (match item with
     | .obj es => flatten_segment_to_fields (.obj es)
     | .arr its => flatten_segment_to_fields (.arr its)
     | v => [safe_value v]) ++ flattenSeqItems rest

end

/-- Python truthiness of JSON-shaped values (`if pn:`, `if garbage_per_segment`). -/
def pyTruthy : JsonVal → Bool
  | .null => false
  | .bool b => b
  | .int n => n != 0
  | .str s => s != ""
  | .arr items => !items.isEmpty
  | .obj entries => !entries.isEmpty

/-- First-match association lookup, modelling Python dict lookup on the
entry list of a parsed JSON object. -/
def lookupEntry : List (String × JsonVal) → String → Option JsonVal
  | [], _ => none
  | (k, v) :: rest, key => if k = key then some v else lookupEntry rest key

/-- Python `x.get(key, default)`: dict lookup with default, raising
`AttributeError` when `x` is not a dict. -/
def pyGet (v : JsonVal) (key : String) (dflt : JsonVal) : Except PyErr JsonVal :=
  match v with
  | .obj entries => .ok ((lookupEntry entries key).getD dflt)
  | _ => .error .attributeError

/-- Common body of the seven `generate_*_segment_row` functions
(bulk.py lines 76-232); they differ only in the segment code and the
default (`{}` or `[]`) used for the `record.get` lookup.  Mirrors:
build `[unique_id, code]`, extend with the flattened fields when the
segment value is truthy, pad with `''` while shorter than 52, append the
sanitized residual (or `''` when `garbage_per_segment` is falsy), append
the six reserved empty columns, and return `row[:59]`. -/
def segment_row_body (unique_id record garbage_per_segment : JsonVal)
    (code : String) (dflt : JsonVal) : Except PyErr (List JsonVal) :=
  match pyGet record code dflt with
  | .error e => .error e
  | .ok seg =>
    let row := [unique_id, JsonVal.str code]
    let row := if pyTruthy seg then
        row ++ (flatten_segment_to_fields seg).map JsonVal.str
      else row
    let row := row ++ List.replicate (52 - row.length) (JsonVal.str "")
    match (if pyTruthy garbage_per_segment then
        Except.map safe_value (pyGet garbage_per_segment code JsonVal.null)
      else .ok "") with
    | .error e => .error e
    | .ok residual_value =>
      let row := row ++ [JsonVal.str residual_value]
      let row := row ++ [JsonVal.str "", JsonVal.str "", JsonVal.str "",
                         JsonVal.str "", JsonVal.str "", JsonVal.str ""]
      .ok (row.take 59)

/-- `generate_pn_segment_row` (bulk.py lines 76-106). -/
def generate_pn_segment_row (unique_id record garbage_per_segment : JsonVal) :
    Except PyErr (List JsonVal) :=
  segment_row_body unique_id record garbage_per_segment "PN" (JsonVal.obj [])

/-- `generate_id_segment_row` (bulk.py lines 108-127). -/
def generate_id_segment_row (unique_id record garbage_per_segment : JsonVal) :
    Except PyErr (List JsonVal) :=
  segment_row_body unique_id record garbage_per_segment "ID" (JsonVal.arr [])

/-- `generate_pt_segment_row` (bulk.py lines 129-148). -/
def generate_pt_segment_row (unique_id record garbage_per_segment : JsonVal) :
    Except PyErr (List JsonVal) :=
  segment_row_body unique_id record garbage_per_segment "PT" (JsonVal.arr [])

/-- `generate_ec_segment_row` (bulk.py lines 150-169). -/
def generate_ec_segment_row (unique_id record garbage_per_segment : JsonVal) :
    Except PyErr (List JsonVal) :=
  segment_row_body unique_id record garbage_per_segment "EC" (JsonVal.obj [])

/-- `generate_pa_segment_row` (bulk.py lines 171-190). -/
def generate_pa_segment_row (unique_id record garbage_per_segment : JsonVal) :
    Except PyErr (List JsonVal) :=
  segment_row_body unique_id record garbage_per_segment "PA" (JsonVal.arr [])

/-- `generate_tl_segment_row` (bulk.py lines 192-211). -/
def generate_tl_segment_row (unique_id record garbage_per_segment : JsonVal) :
    Except PyErr (List JsonVal) :=
  segment_row_body unique_id record garbage_per_segment "TL" (JsonVal.obj [])

/-- `generate_th_segment_row` (bulk.py lines 213-232). -/
def generate_th_segment_row (unique_id record garbage_per_segment : JsonVal) :
    Except PyErr (List JsonVal) :=
  segment_row_body unique_id record garbage_per_segment "TH" (JsonVal.arr [])

/-- `generate_all_segment_rows` (bulk.py lines 234-246): the seven segment
rows in the fixed order PN, ID, PT, EC, PA, TL, TH. -/
def generate_all_segment_rows (unique_id record garbage_per_segment : JsonVal) :
    Except PyErr (List (List JsonVal)) :=
  match generate_pn_segment_row unique_id record garbage_per_segment with
  | .error e => .error e
  | .ok r1 =>
  match generate_id_segment_row unique_id record garbage_per_segment with
  | .error e => .error e
  | .ok r2 =>
  match generate_pt_segment_row unique_id record garbage_per_segment with
  | .error e => .error e
  | .ok r3 =>
  match generate_ec_segment_row unique_id record garbage_per_segment with
  | .error e => .error e
  | .ok r4 =>
  match generate_pa_segment_row unique_id record garbage_per_segment with
  | .error e => .error e
  | .ok r5 =>
  match generate_tl_segment_row unique_id record garbage_per_segment with
  | .error e => .error e
  | .ok r6 =>
  match generate_th_segment_row unique_id record garbage_per_segment with
  | .error e => .error e
  | .ok r7 => .ok [r1, r2, r3, r4, r5, r6, r7]

/-- The test `cell == ''` in the cleaning loop of `generate_csv_from_json`. -/
def isEmptyStrCell : JsonVal → Bool
  | .str s => s == ""
  | _ => false

/-- The inner `for cell in row` cleaning loop of `generate_csv_from_json`
(bulk.py lines 303-314), threading the `problematic_rows` counter: `''`
cells pass through; other cells become `str(cell).strip()`, hard-truncated
to 8000 characters (counting an issue) when longer.  For JSON-shaped cell
values every step is total, so the surrounding per-row `try`/`except`
never fires and is not represented. -/
def cleanRowAux : List JsonVal → Nat → List String × Nat
  | [], problematic_rows => ([], problematic_rows)
  | cell :: rest, problematic_rows =>
    if isEmptyStrCell cell then
      (("" : String) :: (cleanRowAux rest problematic_rows).1,
       (cleanRowAux rest problematic_rows).2)
    else
      let cell_str := pyStrip (pyStr cell)
      if 8000 < cell_str.length then
        (pyTake cell_str 8000 :: (cleanRowAux rest (problematic_rows + 1)).1,
         (cleanRowAux rest (problematic_rows + 1)).2)
      else
        (cell_str :: (cleanRowAux rest problematic_rows).1,
         (cleanRowAux rest problematic_rows).2)

/-- The mutable state of the emission loop in `generate_csv_from_json`:
rows already flushed to the csv writer, the current batch, and the
`rows_written` / `problematic_rows` counters. -/
structure EmitState where
  written : List (List String)
  batch : List (List String)
  rows_written : Nat
  problematic_rows : Nat
deriving DecidableEq

/-- Flushing the batch: `csv_writer.writerows(all_rows_batch)` followed by
`rows_written += len(all_rows_batch)` and `all_rows_batch = []`. -/
def flushBatch (st : EmitState) : EmitState :=
  { written := st.written ++ st.batch
    batch := []
    rows_written := st.rows_written + st.batch.length
    problematic_rows := st.problematic_rows }

/-- One iteration of the `for idx, record_obj in enumerate(records)` loop
(bulk.py lines 291-320): extract `unique_id`, `record` and
`garbage_per_segment` (dict `.get` with defaults — raising on a non-dict
envelope), generate the 7 segment rows (uncaught failures propagate), and
clean each row into the batch. -/
def processEnvelope (st : EmitState) (record_obj : JsonVal) : Except PyErr EmitState :=
  match pyGet record_obj "unique_id" JsonVal.null with
  | .error e => .error e
  | .ok unique_id =>
  match pyGet record_obj "record" (JsonVal.obj []) with
  | .error e => .error e
  | .ok record =>
  match pyGet record_obj "garbage_per_segment" (JsonVal.obj []) with
  | .error e => .error e
  | .ok garbage_per_segment =>
  match generate_all_segment_rows unique_id record garbage_per_segment with
  | .error e => .error e
  | .ok segment_rows =>
    .ok (segment_rows.foldl (fun st row =>
      let cleaned := cleanRowAux row st.problematic_rows
      { st with batch := st.batch ++ [cleaned.1], problematic_rows := cleaned.2 }) st)

/-- The batched emission loop (bulk.py lines 291-327): after each
envelope, flush when `(idx + 1) % batch_size == 0` with `batch_size =
1000`. -/
def processRecordsAux : List JsonVal → Nat → EmitState → Except PyErr EmitState
  | [], _, st => .ok st
  | record_obj :: rest, idx, st =>
    match processEnvelope st record_obj with
    | .error e => .error e
    | .ok st1 => processRecordsAux rest (idx + 1) (if (idx + 1) % 1000 == 0 then flushBatch st1 else st1)

/-- The initial emission state: nothing written, empty batch, zero counters. -/
def initState : EmitState :=
  { written := [], batch := [], rows_written := 0, problematic_rows := 0 }

/-- The whole emission loop over the `Records` list, including the final
`if all_rows_batch:` flush (bulk.py lines 329-332). -/
def processRecords (records : List JsonVal) : Except PyErr EmitState :=
  match processRecordsAux records 0 initState with
  | .error e => .error e
  | .ok st => .ok (if st.batch.isEmpty then st else flushBatch st)

/-- Python iteration over the value bound to `records` (`len(records)` /
`for ... in enumerate(records)`): lists yield their elements, dicts their
keys, strings their characters; other values raise `TypeError`. -/
def pyIterElems : JsonVal → Except PyErr (List JsonVal)
  | .arr items => .ok items
  | .obj entries => .ok (entries.map (fun e => JsonVal.str e.1))
  | .str s => .ok (s.data.map (fun c => JsonVal.str (String.mk [c])))
  | _ => .error .typeError

/-- `generate_csv_from_json` (bulk.py lines 248-343), modelled from the
parsed JSON document: `records = data.get('Records', [])`, run the
emission loop, and `return rows_written` (a single integer — the
`problematic_rows` counter is only printed). -/
def generate_csv_from_json (data : JsonVal) : Except PyErr Nat :=
  match pyGet data "Records" (JsonVal.arr []) with
  | .error e => .error e
  | .ok records =>
  match pyIterElems records with
  | .error e => .error e
  | .ok items =>
  match processRecords items with
  | .error e => .error e
  | .ok st => .ok st.rows_written

/-! ## Shape of a segment row -/

/-- The six reserved empty columns appended to every segment row. -/
def reservedCols : List JsonVal :=
  [JsonVal.str "", JsonVal.str "", JsonVal.str "", JsonVal.str "",
   JsonVal.str "", JsonVal.str ""]

lemma take59_shape (a b : JsonVal) (mid : List JsonVal) (res : JsonVal) :
    ∃ t, (a :: b :: (mid ++ (List.replicate (52 - (mid.length + 1 + 1)) (JsonVal.str "")
        ++ (res :: reservedCols)))).take 59 = a :: b :: t ∧
      ((a :: b :: (mid ++ (List.replicate (52 - (mid.length + 1 + 1)) (JsonVal.str "")
        ++ (res :: reservedCols)))).take 59).length = 59 := by
  rw [show (59 : Nat) = 58 + 1 from rfl, List.take_succ_cons,
      show (58 : Nat) = 57 + 1 from rfl, List.take_succ_cons]
  refine ⟨_, rfl, ?_⟩
  simp only [List.length_cons, List.length_take, List.length_append,
    List.length_replicate, reservedCols]
  omega

/-- Any successful segment row is `unique_id :: code :: _` and has exactly
59 cells. -/
lemma body_ok (u r g : JsonVal) (code : String) (d : JsonVal) (row : List JsonVal)
    (h : segment_row_body u r g code d = Except.ok row) :
    ∃ t, row = u :: JsonVal.str code :: t ∧ row.length = 59 := by
  unfold segment_row_body at h
  cases hseg : pyGet r code d with
  | error e => simp [hseg] at h
  | ok seg =>
    simp only [hseg] at h
    cases hres : (if pyTruthy g then
        Except.map safe_value (pyGet g code JsonVal.null) else Except.ok "") with
    | error e => simp [hres] at h
    | ok residual_value =>
      simp only [hres, Except.ok.injEq] at h
      subst h
      by_cases hpt : pyTruthy seg = true
      · simp only [hpt, if_true, List.cons_append, List.nil_append, List.length_cons,
          List.length_append, List.length_map, List.append_assoc]
        have h2 := take59_shape u (JsonVal.str code)
          ((flatten_segment_to_fields seg).map JsonVal.str) (JsonVal.str residual_value)
        simp only [reservedCols, List.length_map] at h2
        exact h2
      · simp only [hpt, if_false, Bool.not_eq_true, List.cons_append, List.nil_append,
          List.length_cons, List.length_nil, List.append_assoc]
        have h2 := take59_shape u (JsonVal.str code) [] (JsonVal.str residual_value)
        simp only [reservedCols, List.length_nil, List.nil_append] at h2
        exact h2

/-- A successful `generate_all_segment_rows` yields exactly the seven
segment rows, in order, each 59 cells wide and carrying `unique_id` and
the segment code in front. -/
lemma generate_all_ok (u r g : JsonVal) (rows : List (List JsonVal))
    (h : generate_all_segment_rows u r g = Except.ok rows) :
    ∃ t1 t2 t3 t4 t5 t6 t7,
      rows = [u :: JsonVal.str "PN" :: t1, u :: JsonVal.str "ID" :: t2,
              u :: JsonVal.str "PT" :: t3, u :: JsonVal.str "EC" :: t4,
              u :: JsonVal.str "PA" :: t5, u :: JsonVal.str "TL" :: t6,
              u :: JsonVal.str "TH" :: t7] ∧
      ∀ row ∈ rows, row.length = 59 := by
  unfold generate_all_segment_rows at h
  cases h1 : generate_pn_segment_row u r g with
  | error e => simp [h1] at h
  | ok r1 =>
  cases h2 : generate_id_segment_row u r g with
  | error e => simp [h1, h2] at h
  | ok r2 =>
  cases h3 : generate_pt_segment_row u r g with
  | error e => simp [h1, h2, h3] at h
  | ok r3 =>
  cases h4 : generate_ec_segment_row u r g with
  | error e => simp [h1, h2, h3, h4] at h
  | ok r4 =>
  cases h5 : generate_pa_segment_row u r g with
  | error e => simp [h1, h2, h3, h4, h5] at h
  | ok r5 =>
  cases h6 : generate_tl_segment_row u r g with
  | error e => simp [h1, h2, h3, h4, h5, h6] at h
  | ok r6 =>
  cases h7 : generate_th_segment_row u r g with
  | error e => simp [h1, h2, h3, h4, h5, h6, h7] at h
  | ok r7 =>
  simp only [h1, h2, h3, h4, h5, h6, h7, Except.ok.injEq] at h
  subst h
  obtain ⟨t1, e1, l1⟩ := body_ok u r g "PN" (JsonVal.obj []) r1 h1
  obtain ⟨t2, e2, l2⟩ := body_ok u r g "ID" (JsonVal.arr []) r2 h2
  obtain ⟨t3, e3, l3⟩ := body_ok u r g "PT" (JsonVal.arr []) r3 h3
  obtain ⟨t4, e4, l4⟩ := body_ok u r g "EC" (JsonVal.obj []) r4 h4
  obtain ⟨t5, e5, l5⟩ := body_ok u r g "PA" (JsonVal.arr []) r5 h5
  obtain ⟨t6, e6, l6⟩ := body_ok u r g "TL" (JsonVal.obj []) r6 h6
  obtain ⟨t7, e7, l7⟩ := body_ok u r g "TH" (JsonVal.arr []) r7 h7
  subst e1 e2 e3 e4 e5 e6 e7
  refine ⟨t1, t2, t3, t4, t5, t6, t7, rfl, ?_⟩
  intro row hrow
  simp only [List.mem_cons, List.not_mem_nil, or_false] at hrow
  rcases hrow with h | h | h | h | h | h | h <;> subst h <;> assumption

/-! ## C7 and C8: flattening and sanitizer examples -/

/-- C7: `flatten_segment_to_fields` is a deterministic depth-first
pre-order traversal following the input's own key/element order:
`flatten({"a": 1, "b": {"c": 2, "d": 3}}) == ["1", "2", "3"]` and
`flatten([1, [2, 3], 4]) == ["1", "2", "3", "4"]`. -/
theorem c7_flatten_examples :
    flatten_segment_to_fields
        (JsonVal.obj [("a", JsonVal.int 1),
                      ("b", JsonVal.obj [("c", JsonVal.int 2), ("d", JsonVal.int 3)])])
      = ["1", "2", "3"] ∧
    flatten_segment_to_fields
        (JsonVal.arr [JsonVal.int 1, JsonVal.arr [JsonVal.int 2, JsonVal.int 3],
                      JsonVal.int 4])
      = ["1", "2", "3", "4"] := by
  constructor <;> decide

/-- C8: the sanitizer maps `None`, the empty string and the literal string
`"null"` all to the empty string. -/
theorem c8_sanitizer_nulls :
    safe_value JsonVal.null = "" ∧ safe_value (JsonVal.str "") = "" ∧
    safe_value (JsonVal.str "null") = "" := by
  decide

/-! ## C4: every segment row has exactly 59 cells -/

/-- C4: whatever the shape of `unique_id`, `record`, its segment values
and `garbage_per_segment`, every row produced by each of the seven
`generate_*_segment_row` builders has exactly 59 cells. -/
theorem c4_row_width :
    (∀ u r g row, generate_pn_segment_row u r g = Except.ok row → row.length = 59) ∧
    (∀ u r g row, generate_id_segment_row u r g = Except.ok row → row.length = 59) ∧
    (∀ u r g row, generate_pt_segment_row u r g = Except.ok row → row.length = 59) ∧
    (∀ u r g row, generate_ec_segment_row u r g = Except.ok row → row.length = 59) ∧
    (∀ u r g row, generate_pa_segment_row u r g = Except.ok row → row.length = 59) ∧
    (∀ u r g row, generate_tl_segment_row u r g = Except.ok row → row.length = 59) ∧
    (∀ u r g row, generate_th_segment_row u r g = Except.ok row → row.length = 59) :=
  ⟨fun u r g row h => ((body_ok u r g "PN" (JsonVal.obj []) row h).choose_spec).2,
   fun u r g row h => ((body_ok u r g "ID" (JsonVal.arr []) row h).choose_spec).2,
   fun u r g row h => ((body_ok u r g "PT" (JsonVal.arr []) row h).choose_spec).2,
   fun u r g row h => ((body_ok u r g "EC" (JsonVal.obj []) row h).choose_spec).2,
   fun u r g row h => ((body_ok u r g "PA" (JsonVal.arr []) row h).choose_spec).2,
   fun u r g row h => ((body_ok u r g "TL" (JsonVal.obj []) row h).choose_spec).2,
   fun u r g row h => ((body_ok u r g "TH" (JsonVal.arr []) row h).choose_spec).2⟩

/-- A sample envelope for the witnesses. -/
def wUid : JsonVal := JsonVal.str "U1"

/-- A sample record for the witnesses. -/
def wRecord : JsonVal := JsonVal.obj [("PN", JsonVal.obj [("name", JsonVal.str "Jo|hn")])]

/-- Sample residual values for the witnesses. -/
def wGarbage : JsonVal := JsonVal.obj [("PN", JsonVal.str "g1")]

/-- The PN row of the sample envelope. -/
def wRowPN : List JsonVal := (generate_pn_segment_row wUid wRecord wGarbage).toOption.getD []

/-- The ID row of the sample envelope. -/
def wRowID : List JsonVal := (generate_id_segment_row wUid wRecord wGarbage).toOption.getD []

/-- The PT row of the sample envelope. -/
def wRowPT : List JsonVal := (generate_pt_segment_row wUid wRecord wGarbage).toOption.getD []

/-- The EC row of the sample envelope. -/
def wRowEC : List JsonVal := (generate_ec_segment_row wUid wRecord wGarbage).toOption.getD []

/-- The PA row of the sample envelope. -/
def wRowPA : List JsonVal := (generate_pa_segment_row wUid wRecord wGarbage).toOption.getD []

/-- The TL row of the sample envelope. -/
def wRowTL : List JsonVal := (generate_tl_segment_row wUid wRecord wGarbage).toOption.getD []

/-- The TH row of the sample envelope. -/
def wRowTH : List JsonVal := (generate_th_segment_row wUid wRecord wGarbage).toOption.getD []

/-- Witness for C4 at a concrete envelope: each builder succeeds and its
row has 59 cells. -/
theorem c4_row_width_witness :
    (generate_pn_segment_row wUid wRecord wGarbage = Except.ok wRowPN ∧ wRowPN.length = 59) ∧
    (generate_id_segment_row wUid wRecord wGarbage = Except.ok wRowID ∧ wRowID.length = 59) ∧
    (generate_pt_segment_row wUid wRecord wGarbage = Except.ok wRowPT ∧ wRowPT.length = 59) ∧
    (generate_ec_segment_row wUid wRecord wGarbage = Except.ok wRowEC ∧ wRowEC.length = 59) ∧
    (generate_pa_segment_row wUid wRecord wGarbage = Except.ok wRowPA ∧ wRowPA.length = 59) ∧
    (generate_tl_segment_row wUid wRecord wGarbage = Except.ok wRowTL ∧ wRowTL.length = 59) ∧
    (generate_th_segment_row wUid wRecord wGarbage = Except.ok wRowTH ∧ wRowTH.length = 59) :=
  ⟨⟨rfl, c4_row_width.1 wUid wRecord wGarbage wRowPN rfl⟩,
   ⟨rfl, c4_row_width.2.1 wUid wRecord wGarbage wRowID rfl⟩,
   ⟨rfl, c4_row_width.2.2.1 wUid wRecord wGarbage wRowPT rfl⟩,
   ⟨rfl, c4_row_width.2.2.2.1 wUid wRecord wGarbage wRowEC rfl⟩,
   ⟨rfl, c4_row_width.2.2.2.2.1 wUid wRecord wGarbage wRowPA rfl⟩,
   ⟨rfl, c4_row_width.2.2.2.2.2.1 wUid wRecord wGarbage wRowTL rfl⟩,
   ⟨rfl, c4_row_width.2.2.2.2.2.2 wUid wRecord wGarbage wRowTH rfl⟩⟩

/-! ## C5: exactly 7 rows, in the fixed segment order -/

/-- C5: for every envelope, the record expander produces exactly 7 segment
rows, one per segment code, in the fixed stable order
PN, ID, PT, EC, PA, TL, TH (read off each row's `Segment_Name` cell). -/
theorem c5_seven_rows (u r g : JsonVal) (rows : List (List JsonVal))
    (h : generate_all_segment_rows u r g = Except.ok rows) :
    rows.length = 7 ∧
    rows.map (fun row => row.get? 1) =
      [some (JsonVal.str "PN"), some (JsonVal.str "ID"), some (JsonVal.str "PT"),
       some (JsonVal.str "EC"), some (JsonVal.str "PA"), some (JsonVal.str "TL"),
       some (JsonVal.str "TH")] := by
  obtain ⟨t1, t2, t3, t4, t5, t6, t7, hrows, -⟩ := generate_all_ok u r g rows h
  subst hrows
  simp

/-- The seven rows of the sample envelope. -/
def wRows : List (List JsonVal) :=
  (generate_all_segment_rows wUid wRecord wGarbage).toOption.getD []

/-- Witness for C5 at a concrete envelope. -/
theorem c5_seven_rows_witness :
    generate_all_segment_rows wUid wRecord wGarbage = Except.ok wRows ∧
    (wRows.length = 7 ∧
     wRows.map (fun row => row.get? 1) =
       [some (JsonVal.str "PN"), some (JsonVal.str "ID"), some (JsonVal.str "PT"),
        some (JsonVal.str "EC"), some (JsonVal.str "PA"), some (JsonVal.str "TL"),
        some (JsonVal.str "TH")]) :=
  ⟨rfl, c5_seven_rows wUid wRecord wGarbage wRows rfl⟩

/-! ## C1: what actually happens when flatten yields more than 50 fields -/

/-- A segment value flattening to 60 fields. -/
def cSeg60 : JsonVal := JsonVal.arr (List.replicate 60 (JsonVal.int 1))

/-- A record whose PN segment flattens to 60 fields. -/
def cRecord60 : JsonVal := JsonVal.obj [("PN", cSeg60)]

/-- Residual values carrying `"g1"` for PN. -/
def cGarbage60 : JsonVal := JsonVal.obj [("PN", JsonVal.str "g1")]

/-- The PN row generated for `cRecord60`. -/
def cRow60 : List JsonVal :=
  (generate_pn_segment_row (JsonVal.str "U1") cRecord60 cGarbage60).toOption.getD []

/-- C1 counterexample: with 60 flattened fields the emitted PN row is NOT
truncated to 52 before the residual is appended: position 52 (the
`Residual_Value` contract position) holds the 51st flattened value `"1"`,
not the sanitized residual `"g1"`, and position 58 (the last reserved
column) holds a flattened value instead of the empty string.  Only the row
length of 59 survives. -/
theorem c1_overflow_counterexample :
    (flatten_segment_to_fields cSeg60).length = 60 ∧
    generate_pn_segment_row (JsonVal.str "U1") cRecord60 cGarbage60 = Except.ok cRow60 ∧
    cRow60.length = 59 ∧
    safe_value (JsonVal.str "g1") = "g1" ∧
    cRow60.get? 52 = some (JsonVal.str "1") ∧
    cRow60.get? 52 ≠ some (JsonVal.str "g1") ∧
    cRow60.get? 58 = some (JsonVal.str "1") ∧
    cRow60.get? 58 ≠ some (JsonVal.str "") := by
  refine ⟨rfl, rfl, rfl, rfl, rfl, ?_, rfl, ?_⟩
  · intro hc
    rw [show cRow60.get? 52 = some (JsonVal.str "1") from rfl] at hc
    simp only [Option.some.injEq, JsonVal.str.injEq] at hc
    exact absurd hc (by decide)
  · intro hc
    rw [show cRow60.get? 58 = some (JsonVal.str "1") from rfl] at hc
    simp only [Option.some.injEq, JsonVal.str.injEq] at hc
    exact absurd hc (by decide)

/-- C1 amended: when the segment value is truthy and flattens to at least
57 fields, no truncation to 52 happens before the residual is appended;
instead the final `row[:59]` slice keeps the first 57 flattened values in
positions 2..58, so the residual value and the six reserved columns are
sliced off entirely (row length is still 59 by C4). -/
theorem c1_overflow_amended (u r g : JsonVal) (code : String) (d seg : JsonVal)
    (row : List JsonVal)
    (hseg : pyGet r code d = Except.ok seg)
    (htruthy : pyTruthy seg = true)
    (hlen : 57 ≤ (flatten_segment_to_fields seg).length)
    (h : segment_row_body u r g code d = Except.ok row) :
    row = u :: JsonVal.str code ::
      ((flatten_segment_to_fields seg).map JsonVal.str).take 57 := by
  unfold segment_row_body at h
  simp only [hseg] at h
  cases hres : (if pyTruthy g then
      Except.map safe_value (pyGet g code JsonVal.null) else Except.ok "") with
  | error e => simp [hres] at h
  | ok residual_value =>
    simp only [hres, Except.ok.injEq] at h
    subst h
    simp only [htruthy, if_true, List.cons_append, List.nil_append, List.length_cons,
      List.append_assoc]
    have hz : 52 - (((flatten_segment_to_fields seg).map JsonVal.str).length + 1 + 1) = 0 := by
      rw [List.length_map]; omega
    rw [hz, List.replicate_zero, List.nil_append,
      show (59 : Nat) = 58 + 1 from rfl, List.take_succ_cons,
      show (58 : Nat) = 57 + 1 from rfl, List.take_succ_cons,
      List.take_append_of_le_length (by rw [List.length_map]; omega)]

/-- Witness for the amended C1 at the 60-field segment value. -/
theorem c1_overflow_amended_witness :
    pyGet cRecord60 "PN" (JsonVal.obj []) = Except.ok cSeg60 ∧
    pyTruthy cSeg60 = true ∧
    57 ≤ (flatten_segment_to_fields cSeg60).length ∧
    segment_row_body (JsonVal.str "U1") cRecord60 cGarbage60 "PN" (JsonVal.obj [])
      = Except.ok cRow60 ∧
    cRow60 = JsonVal.str "U1" :: JsonVal.str "PN" ::
      ((flatten_segment_to_fields cSeg60).map JsonVal.str).take 57 :=
  ⟨rfl, rfl, by decide,
   rfl,
   c1_overflow_amended (JsonVal.str "U1") cRecord60 cGarbage60 "PN" (JsonVal.obj [])
     cSeg60 cRow60 rfl rfl (by decide) rfl⟩

/-! ## C2: what actually happens when processing an envelope fails -/

/-- A well-formed envelope. -/
def goodEnv : JsonVal :=
  JsonVal.obj [("unique_id", JsonVal.str "U1"), ("record", wRecord),
               ("garbage_per_segment", wGarbage)]

/-- A malformed envelope: its `record` value is a truthy non-dict, so
`record.get('PN', {})` raises `AttributeError` inside
`generate_all_segment_rows`, outside the per-row `try`. -/
def badEnv : JsonVal :=
  JsonVal.obj [("unique_id", JsonVal.str "U2"), ("record", JsonVal.str "oops")]

/-- C2 counterexample: a processing failure on one envelope is NOT caught:
the whole run aborts with the uncaught `AttributeError`, so later (and
for the output, also earlier) envelopes yield no returned result, instead
of "that envelope is skipped and processing continues". -/
theorem c2_failure_counterexample :
    (processRecords [goodEnv]).map EmitState.rows_written = Except.ok 7 ∧
    processRecords [badEnv, goodEnv] = Except.error PyErr.attributeError ∧
    processRecords [goodEnv, badEnv, goodEnv] = Except.error PyErr.attributeError :=
  ⟨rfl, rfl, rfl⟩

/-- C2 amended: a failure raised while generating an envelope's rows
(here: a truthy non-dict `record`) is not caught; it aborts the whole run
no matter how many envelopes follow.  Only failures inside the per-row
cleaning loop are caught — and they would skip just that one row, not the
envelope; for JSON-shaped values the cleaning pass is total, so that
handler never fires. -/
theorem c2_failure_amended (rest : List JsonVal) :
    processRecords (badEnv :: rest) = Except.error PyErr.attributeError := rfl

/-! ## C9: a missing `unique_id` key becomes the literal string "None" -/

/-- Cleaning a row that starts with the Python `None` produced by
`record_obj.get('unique_id')`: `None != ''`, and `str(None).strip()` is
`"None"`, well under the 8000-character limit. -/
lemma cleanRowAux_null_cons (t : List JsonVal) (p : Nat) :
    cleanRowAux (JsonVal.null :: t) p =
      ("None" :: (cleanRowAux t p).1, (cleanRowAux t p).2) := by
  have e1 : isEmptyStrCell JsonVal.null = false := rfl
  have e2 : pyStrip (pyStr JsonVal.null) = "None" := by decide
  have e3 : ¬ (8000 < ("None" : String).length) := by decide
  rw [cleanRowAux]
  simp [e1, e2, e3]

/-- C9: for every envelope lacking the `unique_id` key (processed from any
emission state), the seven rows appended to the batch all carry the
literal string `"None"` — the cleaned stringification of the absent-key
default — in the `Unique_ID` column, not the empty string. -/
theorem c9_missing_unique_id (st : EmitState) (entries : List (String × JsonVal))
    (st2 : EmitState)
    (h1 : lookupEntry entries "unique_id" = none)
    (h2 : processEnvelope st (JsonVal.obj entries) = Except.ok st2) :
    st2.batch.length = st.batch.length + 7 ∧
    st2.batch.take st.batch.length = st.batch ∧
    (st2.batch.drop st.batch.length).map (fun row => row.get? 0) =
      List.replicate 7 (some "None") := by
  unfold processEnvelope at h2
  simp only [pyGet, h1, Option.getD_none] at h2
  cases h3 : generate_all_segment_rows JsonVal.null
      ((lookupEntry entries "record").getD (JsonVal.obj []))
      ((lookupEntry entries "garbage_per_segment").getD (JsonVal.obj [])) with
  | error e => rw [h3] at h2; simp at h2
  | ok rows =>
    rw [h3] at h2
    simp only [Except.ok.injEq] at h2
    obtain ⟨t1, t2, t3, t4, t5, t6, t7, hrows, -⟩ := generate_all_ok _ _ _ rows h3
    subst hrows
    subst h2
    simp only [List.foldl_cons, List.foldl_nil, cleanRowAux_null_cons]
    refine ⟨?_, ?_, ?_⟩
    · simp [List.append_assoc]
    · simp only [List.append_assoc, List.cons_append, List.nil_append]
      exact List.take_left _ _
    · simp only [List.append_assoc, List.cons_append, List.nil_append]
      rw [show st.batch ++ _ = st.batch ++ _ from rfl, List.drop_left]
      simp [List.replicate]

/-- An envelope with no `unique_id` key. -/
def envC9 : JsonVal := JsonVal.obj [("record", JsonVal.obj [])]

/-- The state after processing `envC9` from the initial state. -/
def stC9 : EmitState := (processEnvelope initState envC9).toOption.getD initState

/-- Witness for C9 at a concrete envelope. -/
theorem c9_missing_unique_id_witness :
    lookupEntry [("record", JsonVal.obj [])] "unique_id" = none ∧
    processEnvelope initState envC9 = Except.ok stC9 ∧
    (stC9.batch.length = initState.batch.length + 7 ∧
     stC9.batch.take initState.batch.length = initState.batch ∧
     (stC9.batch.drop initState.batch.length).map (fun row => row.get? 0) =
       List.replicate 7 (some "None")) :=
  ⟨rfl, rfl, c9_missing_unique_id initState [("record", JsonVal.obj [])] stC9 rfl rfl⟩

/-! ## C6: cells longer than 8000 characters are truncated and counted -/

/-- The cleaning pass never drops or adds cells: the cleaned row has the
same width as the generated row (so a truncated row is still emitted in
full). -/
lemma cleanRowAux_length (l : List JsonVal) (p : Nat) :
    (cleanRowAux l p).1.length = l.length := by
  induction l generalizing p with
  | nil => rfl
  | cons c rest ih =>
    rw [cleanRowAux]
    by_cases h1 : isEmptyStrCell c = true
    · simp [h1, ih]
    · by_cases h2 : 8000 < (pyStrip (pyStr c)).length
      · simp [h1, h2, ih]
      · simp [h1, h2, ih]

/-- The `problematic_rows` counter never decreases across the cleaning
pass. -/
lemma cleanRowAux_counter_le (l : List JsonVal) (p : Nat) :
    p ≤ (cleanRowAux l p).2 := by
  induction l generalizing p with
  | nil => exact le_refl p
  | cons c rest ih =>
    rw [cleanRowAux]
    by_cases h1 : isEmptyStrCell c = true
    · simpa [h1] using ih p
    · by_cases h2 : 8000 < (pyStrip (pyStr c)).length
      · have hrec := ih (p + 1)
        simp only [h1, Bool.false_eq_true, if_false, h2, if_true]
        omega
      · simpa [h1, h2] using ih p

/-- C6: in the pipeline's second cleaning pass over every cell of a
generated row, a non-empty cell whose trimmed stringification exceeds 8000
characters is hard-truncated to its first 8000 characters in the emitted
row; the issue counter grows by at least 1, and the whole row is still
emitted (same width, no failure). -/
theorem c6_cell_truncation (row : List JsonVal) (p i : Nat) (cell : JsonVal)
    (hget : row.get? i = some cell)
    (hne : isEmptyStrCell cell = false)
    (hlen : 8000 < (pyStrip (pyStr cell)).length) :
    (cleanRowAux row p).1.get? i = some (pyTake (pyStrip (pyStr cell)) 8000) ∧
    p + 1 ≤ (cleanRowAux row p).2 ∧
    (cleanRowAux row p).1.length = row.length := by
  induction row generalizing p i with
  | nil => simp at hget
  | cons c rest ih =>
    cases i with
    | zero =>
      rw [List.get?_cons_zero, Option.some.injEq] at hget
      subst hget
      rw [cleanRowAux]
      simp only [hne, Bool.false_eq_true, if_false, hlen, if_true]
      refine ⟨rfl, ?_, by simp [cleanRowAux_length]⟩
      have := cleanRowAux_counter_le rest (p + 1)
      omega
    | succ j =>
      rw [List.get?_cons_succ] at hget
      rw [cleanRowAux]
      by_cases h1 : isEmptyStrCell c = true
      · obtain ⟨a, b, cl⟩ := ih p j hget
        simp only [h1, if_true]
        exact ⟨by simpa using a, by simpa using b, by simpa using cl⟩
      · by_cases h2 : 8000 < (pyStrip (pyStr c)).length
        · obtain ⟨a, b, cl⟩ := ih (p + 1) j hget
          simp only [h1, Bool.false_eq_true, if_false, h2, if_true]
          refine ⟨by simpa using a, ?_, by simpa using cl⟩
          omega
        · obtain ⟨a, b, cl⟩ := ih p j hget
          simp only [h1, Bool.false_eq_true, if_false, h2]
          exact ⟨by simpa using a, by simpa using b, by simpa using cl⟩

/-- A 8001-character string. -/
def long8001 : String := String.mk (List.replicate 8001 'a')

lemma dropWhile_repl_a (n : Nat) :
    (List.replicate n 'a').dropWhile isPyWs = List.replicate n 'a' := by
  cases n with
  | zero => rfl
  | succ m =>
    rw [List.replicate_succ, List.dropWhile_cons]
    simp [show isPyWs 'a' = false from rfl]

lemma strip_long8001 : pyStrip (pyStr (JsonVal.str long8001)) = long8001 := by
  show pyStrip long8001 = long8001
  unfold pyStrip long8001
  rw [show (String.mk (List.replicate 8001 'a')).data = List.replicate 8001 'a' from rfl,
    dropWhile_repl_a, List.reverse_replicate, dropWhile_repl_a, List.reverse_replicate]

lemma length_long8001 : long8001.length = 8001 := by
  unfold long8001
  rw [show (String.mk (List.replicate 8001 'a')).length
      = (List.replicate 8001 'a').length from rfl, List.length_replicate]

lemma long8001_not_empty_cell : isEmptyStrCell (JsonVal.str long8001) = false := by
  show (long8001 == "") = false
  rw [beq_eq_false_iff_ne]
  intro h
  have hl := congrArg String.length h
  rw [length_long8001] at hl
  exact absurd hl (by decide)

lemma strip_long8001_gt : 8000 < (pyStrip (pyStr (JsonVal.str long8001))).length := by
  rw [strip_long8001, length_long8001]
  norm_num

/-- Witness for C6: cleaning a row holding one 8001-character cell. -/
theorem c6_cell_truncation_witness :
    [JsonVal.str long8001].get? 0 = some (JsonVal.str long8001) ∧
    isEmptyStrCell (JsonVal.str long8001) = false ∧
    8000 < (pyStrip (pyStr (JsonVal.str long8001))).length ∧
    ((cleanRowAux [JsonVal.str long8001] 0).1.get? 0
        = some (pyTake (pyStrip (pyStr (JsonVal.str long8001))) 8000) ∧
     0 + 1 ≤ (cleanRowAux [JsonVal.str long8001] 0).2 ∧
     (cleanRowAux [JsonVal.str long8001] 0).1.length = [JsonVal.str long8001].length) :=
  ⟨rfl, long8001_not_empty_cell, strip_long8001_gt,
   c6_cell_truncation [JsonVal.str long8001] 0 0 (JsonVal.str long8001) rfl
     long8001_not_empty_cell strip_long8001_gt⟩

/-! ## C3: what `generate_csv_from_json` actually returns -/

/-- The 57 trailing cells of a segment row built from an absent segment
value: 50 field paddings, the empty residual, the six reserved columns. -/
def emptyCells : List JsonVal :=
  List.replicate 50 (JsonVal.str "") ++ JsonVal.str "" :: reservedCols

lemma emptyCells_eq : emptyCells = List.replicate 57 (JsonVal.str "") := by
  rw [show (57 : Nat) = 50 + 7 from rfl, List.replicate_add]
  rfl

/-- A segment row built from an envelope with no `record` and no
`garbage_per_segment` data: identity cells followed by `emptyCells`. -/
lemma empty_record_builder (uid : JsonVal) (code : String) (dflt : JsonVal)
    (hd : pyTruthy dflt = false) :
    segment_row_body uid (JsonVal.obj []) (JsonVal.obj []) code dflt
      = Except.ok (uid :: JsonVal.str code :: emptyCells) := by
  unfold segment_row_body
  simp only [pyGet, lookupEntry, Option.getD_none, hd, Bool.false_eq_true, if_false,
    show pyTruthy (JsonVal.obj []) = false from rfl, Except.ok.injEq]
  simp only [List.cons_append, List.nil_append, List.append_assoc, List.length_cons,
    List.length_nil]
  rw [show (59 : Nat) = 58 + 1 from rfl, List.take_succ_cons,
    show (58 : Nat) = 57 + 1 from rfl, List.take_succ_cons]
  rw [List.take_of_length_le (by simp)]
  simp [emptyCells, reservedCols]

/-- Expanding an envelope whose `record` and `garbage_per_segment`
defaulted to `{}`: seven rows of padding cells. -/
lemma empty_generate_all (uid : JsonVal) :
    generate_all_segment_rows uid (JsonVal.obj []) (JsonVal.obj [])
      = Except.ok
        [uid :: JsonVal.str "PN" :: emptyCells, uid :: JsonVal.str "ID" :: emptyCells,
         uid :: JsonVal.str "PT" :: emptyCells, uid :: JsonVal.str "EC" :: emptyCells,
         uid :: JsonVal.str "PA" :: emptyCells, uid :: JsonVal.str "TL" :: emptyCells,
         uid :: JsonVal.str "TH" :: emptyCells] := by
  have hPN := empty_record_builder uid "PN" (JsonVal.obj []) rfl
  have hID := empty_record_builder uid "ID" (JsonVal.arr []) rfl
  have hPT := empty_record_builder uid "PT" (JsonVal.arr []) rfl
  have hEC := empty_record_builder uid "EC" (JsonVal.obj []) rfl
  have hPA := empty_record_builder uid "PA" (JsonVal.arr []) rfl
  have hTL := empty_record_builder uid "TL" (JsonVal.obj []) rfl
  have hTH := empty_record_builder uid "TH" (JsonVal.arr []) rfl
  unfold generate_all_segment_rows generate_pn_segment_row generate_id_segment_row
    generate_pt_segment_row generate_ec_segment_row generate_pa_segment_row
    generate_tl_segment_row generate_th_segment_row
  rw [hPN, hID, hPT, hEC, hPA, hTL, hTH]

/-- Cleaning a row whose head cell is the 8001-character string: the head
is truncated and the counter bumps. -/
lemma cleanRowAux_long_cons (t : List JsonVal) (p : Nat) :
    cleanRowAux (JsonVal.str long8001 :: t) p
      = (pyTake (pyStrip (pyStr (JsonVal.str long8001))) 8000 :: (cleanRowAux t (p + 1)).1,
         (cleanRowAux t (p + 1)).2) := by
  rw [cleanRowAux]
  simp only [long8001_not_empty_cell, Bool.false_eq_true, if_false, strip_long8001_gt,
    if_true]

/-- Cleaning padding cells is the identity and touches no counter. -/
lemma cleanRowAux_empty_str (n p : Nat) :
    cleanRowAux (List.replicate n (JsonVal.str "")) p = (List.replicate n "", p) := by
  induction n with
  | zero => rfl
  | succ m ih =>
    rw [List.replicate_succ, cleanRowAux]
    simp [show isEmptyStrCell (JsonVal.str "") = true from rfl, ih, List.replicate_succ]

/-- The cleaned form of a segment row of the long-uid envelope. -/
def cleanedLongRow (code : String) : List String :=
  pyTake (pyStrip (pyStr (JsonVal.str long8001))) 8000
    :: pyStrip (pyStr (JsonVal.str code)) :: List.replicate 57 ""

/-- Cleaning one full segment row of the long-uid envelope: the uid cell
is truncated (one issue), the code cell is kept, the padding is kept. -/
lemma clean_long_row (code : String)
    (hcode : isEmptyStrCell (JsonVal.str code) = false)
    (hclen : ¬ (8000 < (pyStrip (pyStr (JsonVal.str code))).length)) (p : Nat) :
    cleanRowAux (JsonVal.str long8001 :: JsonVal.str code :: emptyCells) p
      = (cleanedLongRow code, p + 1) := by
  rw [cleanRowAux_long_cons, cleanRowAux]
  simp only [hcode, Bool.false_eq_true, if_false, hclen, emptyCells_eq,
    cleanRowAux_empty_str, cleanedLongRow]

/-- An envelope whose `unique_id` is the 8001-character string (and whose
`record` and `garbage_per_segment` keys are absent). -/
def envLong : JsonVal := JsonVal.obj [("unique_id", JsonVal.str long8001)]

/-- Processing the long-uid envelope: 7 rows are batched and the issue
counter grows by 7 (one truncated uid cell per row). -/
lemma processEnvelope_envLong (st : EmitState) :
    processEnvelope st envLong = Except.ok
      { written := st.written
        batch := st.batch ++
          [cleanedLongRow "PN", cleanedLongRow "ID", cleanedLongRow "PT",
           cleanedLongRow "EC", cleanedLongRow "PA", cleanedLongRow "TL",
           cleanedLongRow "TH"]
        rows_written := st.rows_written
        problematic_rows := st.problematic_rows + 7 } := by
  have cPN := clean_long_row "PN" (by decide) (by decide)
  have cID := clean_long_row "ID" (by decide) (by decide)
  have cPT := clean_long_row "PT" (by decide) (by decide)
  have cEC := clean_long_row "EC" (by decide) (by decide)
  have cPA := clean_long_row "PA" (by decide) (by decide)
  have cTL := clean_long_row "TL" (by decide) (by decide)
  have cTH := clean_long_row "TH" (by decide) (by decide)
  unfold processEnvelope envLong
  simp only [pyGet, lookupEntry, if_pos, Option.getD_some, Option.getD_none,
    show ("unique_id" = "unique_id") = True from by simp,
    show ("unique_id" = "record") = False from by simp,
    show ("unique_id" = "garbage_per_segment") = False from by simp,
    if_true, if_false]
  rw [empty_generate_all (JsonVal.str long8001)]
  simp only [List.foldl_cons, List.foldl_nil, cPN, cID, cPT, cEC, cPA, cTL, cTH]
  simp only [Except.ok.injEq, EmitState.mk.injEq]
  refine ⟨?_, ?_, ?_, ?_⟩ <;> first
    | trivial
    | simp [List.append_assoc]

/-- Running the pipeline on just the long-uid envelope. -/
lemma processRecords_envLong :
    processRecords [envLong] = Except.ok
      { written :=
          [cleanedLongRow "PN", cleanedLongRow "ID", cleanedLongRow "PT",
           cleanedLongRow "EC", cleanedLongRow "PA", cleanedLongRow "TL",
           cleanedLongRow "TH"]
        batch := []
        rows_written := 7
        problematic_rows := 7 } := by
  unfold processRecords processRecordsAux
  rw [processEnvelope_envLong initState]
  simp [processRecordsAux, initState, flushBatch]

/-- An envelope with an ordinary short `unique_id`. -/
def envPlain : JsonVal := JsonVal.obj [("unique_id", JsonVal.str "U1")]

/-- A document whose only record is the long-uid envelope. -/
def dataLong : JsonVal := JsonVal.obj [("Records", JsonVal.arr [envLong])]

/-- A document whose only record is the plain envelope. -/
def dataPlain : JsonVal := JsonVal.obj [("Records", JsonVal.arr [envPlain])]

set_option maxRecDepth 40000 in
/-- C3 counterexample: `generate_csv_from_json` returns a single integer,
not a pair: on `dataLong` (issue counter 7) and on `dataPlain` (issue
counter 0) it returns the very same value `7`, so the count of flagged
rows/cells is not part of what the caller gets back. -/
theorem c3_return_counterexample :
    generate_csv_from_json dataLong = Except.ok 7 ∧
    generate_csv_from_json dataPlain = Except.ok 7 ∧
    generate_csv_from_json dataLong = generate_csv_from_json dataPlain ∧
    (processRecords [envLong]).map EmitState.problematic_rows = Except.ok 7 ∧
    (processRecords [envPlain]).map EmitState.problematic_rows = Except.ok 0 := by
  have h1 : generate_csv_from_json dataLong = Except.ok 7 := by
    unfold generate_csv_from_json dataLong
    simp only [pyGet, lookupEntry, if_pos, Option.getD_some,
      show ("Records" = "Records") = True from by simp, if_true, pyIterElems]
    rw [processRecords_envLong]
  have h2 : generate_csv_from_json dataPlain = Except.ok 7 := rfl
  refine ⟨h1, h2, h1.trans h2.symm, ?_, rfl⟩
  rw [processRecords_envLong]
  rfl

/-- C3 amended: the pipeline returns only the total number of rows
written; the issue counter is printed but not returned. -/
theorem c3_return_amended (records : List JsonVal) (st : EmitState)
    (h : processRecords records = Except.ok st) :
    generate_csv_from_json (JsonVal.obj [("Records", JsonVal.arr records)])
      = Except.ok st.rows_written := by
  unfold generate_csv_from_json
  simp only [pyGet, lookupEntry, if_pos, Option.getD_some,
    show ("Records" = "Records") = True from by simp, if_true, pyIterElems]
  rw [h]

/-- Witness for the amended C3 on the empty record list. -/
theorem c3_return_amended_witness :
    processRecords ([] : List JsonVal) = Except.ok initState ∧
    generate_csv_from_json (JsonVal.obj [("Records", JsonVal.arr [])])
      = Except.ok initState.rows_written :=
  ⟨rfl, c3_return_amended [] initState rfl⟩

/-! ## C10: the sanitizer's output invariant -/

/-- Two adjacent characters are never both whitespace. -/
def WsSingle (a b : Char) : Prop := ¬ (isPyWs a = true ∧ isPyWs b = true)

/-- The invariant of sanitized strings: no newline, carriage return or
pipe; any whitespace is a single space; no two adjacent whitespace
characters; trimmed (no leading or trailing whitespace). -/
def Sanitized (s : String) : Prop :=
  (∀ c ∈ s.data, c ≠ '\n' ∧ c ≠ '\r' ∧ c ≠ '|' ∧ (isPyWs c = true → c = ' ')) ∧
  List.Chain' WsSingle s.data ∧
  s.data.head?.all (fun c => !isPyWs c) = true ∧
  s.data.getLast?.all (fun c => !isPyWs c) = true

/-- Words produced by the `str.split()` tokenizer are non-empty and free
of whitespace. -/
lemma splitWsAux_good (l : List Char) : ∀ (acc : List Char),
    (∀ c ∈ acc, isPyWs c = false) →
    ∀ t ∈ splitWsAux l acc, t ≠ [] ∧ ∀ c ∈ t, isPyWs c = false := by
  induction l with
  | nil =>
    intro acc hacc t ht
    rw [splitWsAux] at ht
    by_cases he : acc.isEmpty
    · simp [he] at ht
    · simp only [he, Bool.false_eq_true, if_false, List.mem_cons, List.not_mem_nil,
        or_false] at ht
      subst ht
      have hne : acc ≠ [] := by
        intro h0; subst h0; simp at he
      refine ⟨by simpa using hne, ?_⟩
      intro c hc
      exact hacc c (List.mem_reverse.mp hc)
  | cons a cs ih =>
    intro acc hacc t ht
    rw [splitWsAux] at ht
    by_cases hws : isPyWs a
    · simp only [hws, if_true] at ht
      by_cases he : acc.isEmpty
      · simp only [he, if_true] at ht
        exact ih [] (by simp) t ht
      · simp only [he, Bool.false_eq_true, if_false, List.mem_cons] at ht
        rcases ht with h | h
        · subst h
          have hne : acc ≠ [] := by
            intro h0; subst h0; simp at he
          refine ⟨by simpa using hne, ?_⟩
          intro c hc
          exact hacc c (List.mem_reverse.mp hc)
        · exact ih [] (by simp) t h
    · simp only [hws, if_false] at ht
      refine ih (a :: acc) ?_ t ht
      intro c hc
      rcases List.mem_cons.mp hc with h | h
      · subst h; exact Bool.eq_false_iff.mpr hws
      · exact hacc c h

/-- A list without whitespace characters trivially satisfies the
no-adjacent-whitespace chain. -/
lemma chain'_no_ws : ∀ (l : List Char), (∀ c ∈ l, isPyWs c = false) →
    List.Chain' WsSingle l := by
  intro l
  induction l with
  | nil => intro _; exact List.chain'_nil
  | cons a t ih =>
    intro h
    cases t with
    | nil => exact List.chain'_singleton a
    | cons b t2 =>
      rw [List.chain'_cons]
      refine ⟨?_, ih (fun c hc => h c (List.mem_cons_of_mem a hc))⟩
      intro hcon
      rw [h a (by simp)] at hcon
      exact absurd hcon.1 (by simp)

/-- `joinWs` of a list starting with a non-empty word is non-empty. -/
lemma joinWs_cons_cons (w w2 : List Char) (ws2 : List (List Char)) :
    joinWs (w :: w2 :: ws2) = w ++ ' ' :: joinWs (w2 :: ws2) := rfl

lemma joinWs_cons_ne_nil (w : List Char) (ws : List (List Char)) (hw : w ≠ []) :
    joinWs (w :: ws) ≠ [] := by
  cases ws with
  | nil => simpa [joinWs] using hw
  | cons w2 ws2 =>
    rw [joinWs_cons_cons]
    simp [List.append_eq_nil]

/-- The head of a joined word list is the head of its first word. -/
lemma joinWs_cons_head (w : List Char) (ws : List (List Char)) (hw : w ≠ []) :
    (joinWs (w :: ws)).head? = w.head? := by
  cases ws with
  | nil => rfl
  | cons w2 ws2 =>
    rw [joinWs_cons_cons]
    cases w with
    | nil => exact absurd rfl hw
    | cons c t => rfl

/-- Mapping a space-preserving character function through `joinWs`. -/
lemma joinWs_map (f : Char → Char) (hf : f ' ' = ' ') :
    ∀ ts : List (List Char), List.map f (joinWs ts) = joinWs (ts.map (List.map f)) := by
  intro ts
  induction ts with
  | nil => simp [joinWs]
  | cons w ws ih =>
    cases ws with
    | nil => simp [joinWs]
    | cons w2 ws2 =>
      simp only [joinWs_cons_cons, List.map_append, List.map_cons, hf, ih]

/-- Joining non-empty whitespace-free pipe-free words with single spaces
yields a sanitized string. -/
lemma sanitized_join : ∀ (ts : List (List Char)),
    (∀ t ∈ ts, t ≠ [] ∧ ∀ c ∈ t, isPyWs c = false ∧ c ≠ '|') →
    Sanitized (String.mk (joinWs ts)) := by
  intro ts
  induction ts with
  | nil =>
    intro _
    exact ⟨by simp [joinWs], by simp [joinWs, List.chain'_nil], rfl, rfl⟩
  | cons w ws ih =>
    intro h
    have hw := h w (by simp)
    have charGood : ∀ c, isPyWs c = false → c ≠ '|' →
        c ≠ '\n' ∧ c ≠ '\r' ∧ c ≠ '|' ∧ (isPyWs c = true → c = ' ') := by
      intro c hc hp
      refine ⟨?_, ?_, hp, ?_⟩
      · intro e; subst e; simp [isPyWs] at hc
      · intro e; subst e; simp [isPyWs] at hc
      · intro e; rw [hc] at e; cases e
    cases ws with
    | nil =>
      refine ⟨?_, ?_, ?_, ?_⟩
      · intro c hc
        have hm : c ∈ w := by simpa [joinWs] using hc
        exact charGood c (hw.2 c hm).1 (hw.2 c hm).2
      · exact chain'_no_ws _ (fun c hc => (hw.2 c (by simpa [joinWs] using hc)).1)
      · show (joinWs [w]).head?.all (fun c => !isPyWs c) = true
        cases hh : (joinWs [w]).head? with
        | none => rfl
        | some c =>
          have hm : c ∈ w := by
            have : (joinWs [w]) = w := rfl
            rw [this] at hh
            exact List.mem_of_mem_head? (by simp [hh])
          simp [Option.all, (hw.2 c hm).1]
      · show (joinWs [w]).getLast?.all (fun c => !isPyWs c) = true
        cases hh : (joinWs [w]).getLast? with
        | none => rfl
        | some c =>
          have hm : c ∈ w := by
            have he : (joinWs [w]) = w := rfl
            rw [he] at hh
            obtain ⟨ys, hys⟩ := List.getLast?_eq_some_iff.mp hh
            subst hys; simp
          simp [Option.all, (hw.2 c hm).1]
    | cons w2 ws2 =>
      have ihh := ih (fun t ht => h t (List.mem_cons_of_mem w ht))
      obtain ⟨ihA, ihB, ihC, ihD⟩ := ihh
      have hw2 := h w2 (by simp)
      have hJne : joinWs (w2 :: ws2) ≠ [] := joinWs_cons_ne_nil w2 ws2 hw2.1
      refine ⟨?_, ?_, ?_, ?_⟩
      · intro c hc
        have hc2 : c ∈ w ++ ' ' :: joinWs (w2 :: ws2) := by
          simpa [joinWs_cons_cons] using hc
        rcases List.mem_append.mp hc2 with hm | hm
        · exact charGood c (hw.2 c hm).1 (hw.2 c hm).2
        · rcases List.mem_cons.mp hm with hm2 | hm2
          · subst hm2
            exact ⟨by decide, by decide, by decide, fun _ => rfl⟩
          · exact ihA c hm2
      · show List.Chain' WsSingle (joinWs (w :: w2 :: ws2))
        rw [joinWs_cons_cons]
        rw [List.chain'_append]
        refine ⟨chain'_no_ws w (fun c hc => (hw.2 c hc).1), ?_, ?_⟩
        · rw [List.chain'_cons']
          refine ⟨?_, ihB⟩
          intro y hy
          have hysome : (joinWs (w2 :: ws2)).head? = some y := by simpa using hy
          rw [hysome] at ihC
          have hyf : isPyWs y = false := by simpa [Option.all] using ihC
          intro hcon
          rw [hyf] at hcon
          exact absurd hcon.2 (by simp)
        · intro x hx y hy
          have hxw : x ∈ w := by
            have hxs : w.getLast? = some x := by simpa using hx
            obtain ⟨ys, hys⟩ := List.getLast?_eq_some_iff.mp hxs
            subst hys; simp
          intro hcon
          rw [(hw.2 x hxw).1] at hcon
          exact absurd hcon.1 (by simp)
      · show (joinWs (w :: w2 :: ws2)).head?.all (fun c => !isPyWs c) = true
        rw [joinWs_cons_head w _ hw.1]
        cases hh : w.head? with
        | none => rfl
        | some c =>
          have hm : c ∈ w := List.mem_of_mem_head? (by simp [hh])
          simp [Option.all, (hw.2 c hm).1]
      · show (joinWs (w :: w2 :: ws2)).getLast?.all (fun c => !isPyWs c) = true
        rw [joinWs_cons_cons]
        rw [List.getLast?_append]
        have hlast : (' ' :: joinWs (w2 :: ws2)).getLast? = (joinWs (w2 :: ws2)).getLast? := by
          cases hJ : joinWs (w2 :: ws2) with
          | nil => exact absurd hJ hJne
          | cons j js => rw [List.getLast?_cons_cons]
        rw [hlast]
        cases hh : (joinWs (w2 :: ws2)).getLast? with
        | none =>
          exact absurd (List.getLast?_eq_none_iff.mp hh) hJne
        | some c =>
          rw [hh] at ihD
          simpa using ihD

/-- The sanitizer's output always satisfies the invariant. -/
lemma safe_value_sanitized (v : JsonVal) : Sanitized (safe_value v) := by
  unfold safe_value
  by_cases hn : isNullLike v = true
  · simp only [hn, if_true]
    exact ⟨by simp, List.chain'_nil, rfl, rfl⟩
  · simp only [hn, Bool.false_eq_true, if_false]
    have tg := splitWsAux_good
      ((replChar '\r' ' ' (replChar '\n' ' ' (pyStrip (pyStr v)))).data) [] (by simp)
    show Sanitized (replChar '|' '-'
      (pyJoinSplit (replChar '\r' ' ' (replChar '\n' ' ' (pyStrip (pyStr v))))))
    have hrepr : replChar '|' '-'
        (pyJoinSplit (replChar '\r' ' ' (replChar '\n' ' ' (pyStrip (pyStr v)))))
        = String.mk (joinWs ((splitWsChars
            ((replChar '\r' ' ' (replChar '\n' ' ' (pyStrip (pyStr v)))).data)).map
              (List.map (fun c => if c = '|' then '-' else c)))) := by
      show String.mk _ = _
      rw [← joinWs_map (fun c => if c = '|' then '-' else c) rfl]
      rfl
    rw [hrepr]
    apply sanitized_join
    intro t ht
    obtain ⟨t0, ht0, rfl⟩ := List.mem_map.mp ht
    obtain ⟨hne, hch⟩ := tg t0 (by simpa [splitWsChars] using ht0)
    refine ⟨by simpa using hne, ?_⟩
    intro c hc
    obtain ⟨c0, hc0, rfl⟩ := List.mem_map.mp hc
    have h0 := hch c0 hc0
    by_cases e : c0 = '|'
    · subst e
      exact ⟨by decide, by decide⟩
    · simp only [e, if_false]
      exact ⟨h0, e⟩

lemma flatten_obj_def (entries : List (String × JsonVal)) :
    flatten_segment_to_fields (JsonVal.obj entries) = flattenDictEntries entries := rfl

lemma flatten_arr_def (items : List JsonVal) :
    flatten_segment_to_fields (JsonVal.arr items) = flattenSeqItems items := rfl

/-- Every string appended by the flattening engine is a `safe_value`
output (mutual strong induction over the nested value structure). -/
lemma flat_aux : ∀ n : Nat,
    (∀ its : List JsonVal, sizeOf its ≤ n →
      ∀ s ∈ flattenSeqItems its, ∃ w, s = safe_value w) ∧
    (∀ es : List (String × JsonVal), sizeOf es ≤ n →
      ∀ s ∈ flattenDictEntries es, ∃ w, s = safe_value w) ∧
    (∀ v : JsonVal, sizeOf v ≤ n →
      ∀ s ∈ flatten_segment_to_fields v, ∃ w, s = safe_value w) := by
  intro n
  induction n using Nat.strong_induction_on with
  | _ n ih =>
  refine ⟨?_, ?_, ?_⟩
  · intro its hsz s hs
    cases its with
    | nil => simp [show flattenSeqItems [] = [] from rfl] at hs
    | cons item rest =>
      simp only [List.cons.sizeOf_spec] at hsz
      have hrest : sizeOf rest < n := by omega
      cases item with
      | obj es =>
        rw [show flattenSeqItems (JsonVal.obj es :: rest)
            = flatten_segment_to_fields (JsonVal.obj es) ++ flattenSeqItems rest from rfl] at hs
        rcases List.mem_append.mp hs with h | h
        · have hlt : sizeOf (JsonVal.obj es) < n := by
            simp only [JsonVal.obj.sizeOf_spec] at hsz ⊢; omega
          exact (ih _ hlt).2.2 (JsonVal.obj es) le_rfl s h
        · exact (ih _ hrest).1 rest le_rfl s h
      | arr its2 =>
        rw [show flattenSeqItems (JsonVal.arr its2 :: rest)
            = flatten_segment_to_fields (JsonVal.arr its2) ++ flattenSeqItems rest from rfl] at hs
        rcases List.mem_append.mp hs with h | h
        · have hlt : sizeOf (JsonVal.arr its2) < n := by
            simp only [JsonVal.arr.sizeOf_spec] at hsz ⊢; omega
          exact (ih _ hlt).2.2 (JsonVal.arr its2) le_rfl s h
        · exact (ih _ hrest).1 rest le_rfl s h
      | null =>
        rw [show flattenSeqItems (JsonVal.null :: rest)
            = [safe_value JsonVal.null] ++ flattenSeqItems rest from rfl] at hs
        rcases List.mem_append.mp hs with h | h
        · exact ⟨JsonVal.null, by simpa using h⟩
        · exact (ih _ hrest).1 rest le_rfl s h
      | bool b =>
        rw [show flattenSeqItems (JsonVal.bool b :: rest)
            = [safe_value (JsonVal.bool b)] ++ flattenSeqItems rest from rfl] at hs
        rcases List.mem_append.mp hs with h | h
        · exact ⟨JsonVal.bool b, by simpa using h⟩
        · exact (ih _ hrest).1 rest le_rfl s h
      | int m =>
        rw [show flattenSeqItems (JsonVal.int m :: rest)
            = [safe_value (JsonVal.int m)] ++ flattenSeqItems rest from rfl] at hs
        rcases List.mem_append.mp hs with h | h
        · exact ⟨JsonVal.int m, by simpa using h⟩
        · exact (ih _ hrest).1 rest le_rfl s h
      | str st =>
        rw [show flattenSeqItems (JsonVal.str st :: rest)
            = [safe_value (JsonVal.str st)] ++ flattenSeqItems rest from rfl] at hs
        rcases List.mem_append.mp hs with h | h
        · exact ⟨JsonVal.str st, by simpa using h⟩
        · exact (ih _ hrest).1 rest le_rfl s h
  · intro es hsz s hs
    cases es with
    | nil => simp [show flattenDictEntries [] = [] from rfl] at hs
    | cons kv rest =>
      obtain ⟨k, value⟩ := kv
      simp only [List.cons.sizeOf_spec, Prod.mk.sizeOf_spec] at hsz
      have hrest : sizeOf rest < n := by omega
      cases value with
      | obj es2 =>
        rw [show flattenDictEntries ((k, JsonVal.obj es2) :: rest)
            = flatten_segment_to_fields (JsonVal.obj es2) ++ flattenDictEntries rest from rfl] at hs
        rcases List.mem_append.mp hs with h | h
        · have hlt : sizeOf (JsonVal.obj es2) < n := by
            simp only [JsonVal.obj.sizeOf_spec] at hsz ⊢; omega
          exact (ih _ hlt).2.2 (JsonVal.obj es2) le_rfl s h
        · exact (ih _ hrest).2.1 rest le_rfl s h
      | arr its2 =>
        rw [show flattenDictEntries ((k, JsonVal.arr its2) :: rest)
            = flattenSeqItems its2 ++ flattenDictEntries rest from rfl] at hs
        rcases List.mem_append.mp hs with h | h
        · have hlt : sizeOf its2 < n := by
            simp only [JsonVal.arr.sizeOf_spec] at hsz; omega
          exact (ih _ hlt).1 its2 le_rfl s h
        · exact (ih _ hrest).2.1 rest le_rfl s h
      | null =>
        rw [show flattenDictEntries ((k, JsonVal.null) :: rest)
            = [safe_value JsonVal.null] ++ flattenDictEntries rest from rfl] at hs
        rcases List.mem_append.mp hs with h | h
        · exact ⟨JsonVal.null, by simpa using h⟩
        · exact (ih _ hrest).2.1 rest le_rfl s h
      | bool b =>
        rw [show flattenDictEntries ((k, JsonVal.bool b) :: rest)
            = [safe_value (JsonVal.bool b)] ++ flattenDictEntries rest from rfl] at hs
        rcases List.mem_append.mp hs with h | h
        · exact ⟨JsonVal.bool b, by simpa using h⟩
        · exact (ih _ hrest).2.1 rest le_rfl s h
      | int m =>
        rw [show flattenDictEntries ((k, JsonVal.int m) :: rest)
            = [safe_value (JsonVal.int m)] ++ flattenDictEntries rest from rfl] at hs
        rcases List.mem_append.mp hs with h | h
        · exact ⟨JsonVal.int m, by simpa using h⟩
        · exact (ih _ hrest).2.1 rest le_rfl s h
      | str st =>
        rw [show flattenDictEntries ((k, JsonVal.str st) :: rest)
            = [safe_value (JsonVal.str st)] ++ flattenDictEntries rest from rfl] at hs
        rcases List.mem_append.mp hs with h | h
        · exact ⟨JsonVal.str st, by simpa using h⟩
        · exact (ih _ hrest).2.1 rest le_rfl s h
  · intro v hsz s hs
    cases v with
    | obj entries =>
      have hlt : sizeOf entries < n := by
        simp only [JsonVal.obj.sizeOf_spec] at hsz; omega
      rw [flatten_obj_def] at hs
      exact (ih _ hlt).2.1 entries le_rfl s hs
    | arr items =>
      have hlt : sizeOf items < n := by
        simp only [JsonVal.arr.sizeOf_spec] at hsz; omega
      rw [flatten_arr_def] at hs
      exact (ih _ hlt).1 items le_rfl s hs
    | null =>
      exact ⟨JsonVal.null,
        by simpa [show flatten_segment_to_fields JsonVal.null
            = [safe_value JsonVal.null] from rfl] using hs⟩
    | bool b =>
      exact ⟨JsonVal.bool b,
        by simpa [show flatten_segment_to_fields (JsonVal.bool b)
            = [safe_value (JsonVal.bool b)] from rfl] using hs⟩
    | int m =>
      exact ⟨JsonVal.int m,
        by simpa [show flatten_segment_to_fields (JsonVal.int m)
            = [safe_value (JsonVal.int m)] from rfl] using hs⟩
    | str st =>
      exact ⟨JsonVal.str st,
        by simpa [show flatten_segment_to_fields (JsonVal.str st)
            = [safe_value (JsonVal.str st)] from rfl] using hs⟩

/-- C10: for every input value the sanitizer returns a string with no
newline, carriage return, other whitespace run, or `|` character — its
output is trimmed with whitespace collapsed to single spaces — and every
field string appended by the flattening engine satisfies the same
invariant. -/
theorem c10_sanitizer_invariant (v : JsonVal) :
    Sanitized (safe_value v) ∧
    ∀ s ∈ flatten_segment_to_fields v, Sanitized s := by
  refine ⟨safe_value_sanitized v, ?_⟩
  intro s hs
  obtain ⟨w, rfl⟩ := (flat_aux (sizeOf v)).2.2 v le_rfl s hs
  exact safe_value_sanitized w

/-- Witness for C10 at concrete inputs. -/
theorem c10_sanitizer_invariant_witness :
    Sanitized (safe_value (JsonVal.str " a\nb ")) ∧
    ("1" ∈ flatten_segment_to_fields (JsonVal.arr [JsonVal.int 1]) ∧ Sanitized "1") :=
  ⟨(c10_sanitizer_invariant (JsonVal.str " a\nb ")).1,
   by decide,
   (c10_sanitizer_invariant (JsonVal.arr [JsonVal.int 1])).2 "1" (by decide)⟩

end Bulk
